import Mathlib

/-!
A verification development for the matching engine of the Resume_Analyzer
repository: the boolean skill-expression evaluator (`utils/skill_extract.py`),
the experience matcher and scorer (`utils/exper_test.py`), the education
matcher (`utils/education_extract.py`, `app.py`) and the aggregate scorer
(`app.py`).

Modelling conventions:
* Python `float` values are modelled as exact rationals (`ℚ`); IEEE 754
  rounding, infinities produced by overflow, and NaN are outside the model.
  The literal `float('inf')` used as a default bound is modelled by an
  `Option` (`none` = unbounded), mirroring how the code treats it.
* Python strings are modelled over their character lists; `str.lower` and
  `str.strip` are modelled for ASCII text.
* Python dictionaries with optional keys are modelled as structures whose
  fields have type `Option (Option _)`: the outer `Option` is key presence,
  the inner one a possible `None` value.
* Exceptions are modelled with `Except`; a caught-and-converted `TypeError`
  carries the flag saying whether its message matches the
  `'float' and 'NoneType'` pattern tested by `score_experience_match`.
-/

namespace ResumeAnalyzer

/-! ### Python string primitives (ASCII model) -/

/-- ASCII lowercasing of one character, modelling `str.lower` on ASCII text. -/
def lowerChar (c : Char) : Char :=
  if 'A' ≤ c ∧ c ≤ 'Z' then Char.ofNat (c.toNat + 32) else c

def lowerList (l : List Char) : List Char := l.map lowerChar

def lowerStr (s : String) : String := ⟨lowerList s.toList⟩

/-- The whitespace characters removed by Python's `str.strip()` (ASCII part). -/
def isPySpace (c : Char) : Bool :=
  c = ' ' ∨ c = '\t' ∨ c = '\n' ∨ c = '\r' ∨ c = '\x0b' ∨ c = '\x0c'

/-- Drop characters satisfying `p` from both ends, as `str.strip(chars)` does. -/
def stripWhile (p : Char → Bool) (l : List Char) : List Char :=
  ((l.dropWhile p).reverse.dropWhile p).reverse

/-- `str.strip()`. -/
def pyStrip (l : List Char) : List Char := stripWhile isPySpace l

/-- Python's substring test `needle in hay` on strings. -/
def isSubstr (needle hay : List Char) : Bool :=
  hay.tails.any (fun t => needle.isPrefixOf t)

/-- `round(x, 2)` modelled on rationals (round-half-up; Python's float
round differs only at exact `.005` ties, which the modelled scores do not
produce except on astronomically large inputs). -/
def round2 (q : ℚ) : ℚ := (round (q * 100) : ℤ) / 100

/-! ### difflib.SequenceMatcher(None, a, b).ratio()

A direct port of the CPython `difflib` algorithm specialised to
`isjunk = None`: `b2j` index map (with the autojunk "popular element"
deletion for `len(b) >= 200`), `find_longest_match` with its two
equal-element extension loops (the junk extension loops are vacuous since
`bjunk` is empty for `isjunk = None`), and the recursive matching-block
split of `get_matching_blocks`, of which only the total matched size is
needed for `ratio`. -/

/-- Association-list lookup for the `b2j` map. -/
def b2jFind (m : List (Char × List ℕ)) (c : Char) : List ℕ :=
  match m.find? (fun p => p.1 = c) with
  | some p => p.2
  | none => []

/-- `b2j.setdefault(elt, []).append(i)`. -/
def b2jInsert (m : List (Char × List ℕ)) (c : Char) (j : ℕ) : List (Char × List ℕ) :=
  match m with
  | [] => [(c, [j])]
  | (d, js) :: rest => if d = c then (d, js ++ [j]) :: rest else (d, js) :: b2jInsert rest c j

def b2jBuild (b : List Char) : List (Char × List ℕ) :=
  b.enum.foldl (fun m p => b2jInsert m p.2 p.1) []

/-- `__chain_b` with `isjunk = None`: only the autojunk deletion of popular
elements applies, and only when `len(b) >= 200`. -/
def b2jChain (b : List Char) : List (Char × List ℕ) :=
  let m := b2jBuild b
  let n := b.length
  if 200 ≤ n then
    let ntest := n / 100 + 1
    m.filter (fun p => p.2.length ≤ ntest)
  else m

/-- Lookup in the `j2len` map of `find_longest_match` (missing key ↦ 0). -/
def j2lenGet (m : List (ℕ × ℕ)) (j : ℕ) : ℕ :=
  match m.find? (fun p => p.1 = j) with
  | some p => p.2
  | none => 0

def listGetD (l : List Char) (i : ℕ) : Char := l.getD i ' '

/-- The inner loop of `find_longest_match` for one index `i` of `a`:
runs over `b2j[a[i]]` (ascending), skipping `j < blo`, stopping at
`j >= bhi`, building `newj2len` and updating the current best block. -/
def flmScanI (j2len : List (ℕ × ℕ)) (i : ℕ) (js : List ℕ) (blo bhi : ℕ)
    (best : ℕ × ℕ × ℕ) : List (ℕ × ℕ) × (ℕ × ℕ × ℕ) :=
  js.foldl
    (fun acc j =>
      if blo ≤ j ∧ j < bhi then
        let k := (if j = 0 then 0 else j2lenGet j2len (j - 1)) + 1
        (acc.1 ++ [(j, k)],
         if acc.2.2.2 < k then (i + 1 - k, j + 1 - k, k) else acc.2)
      else acc)
    ([], best)

/-- The main scan of `find_longest_match` (before the extension loops). -/
def flmCore (a : List Char) (b2j : List (Char × List ℕ)) (alo ahi blo bhi : ℕ) :
    ℕ × ℕ × ℕ :=
  ((List.range' alo (ahi - alo)).foldl
    (fun st i => flmScanI st.1 i (b2jFind b2j (listGetD a i)) blo bhi st.2)
    ([], (alo, blo, 0))).2

/-- `while besti > alo and bestj > blo and a[besti-1] == b[bestj-1]` extension. -/
def extendLeft (a b : List Char) (alo blo : ℕ) : ℕ → ℕ → ℕ → ℕ × ℕ × ℕ
  | 0, bj, bs => (0, bj, bs)
  | bi + 1, bj, bs =>
    if alo < bi + 1 ∧ blo < bj ∧ listGetD a bi = listGetD b (bj - 1) then
      extendLeft a b alo blo bi (bj - 1) (bs + 1)
    else (bi + 1, bj, bs)

/-- `while besti+bestsize < ahi and bestj+bestsize < bhi and
a[besti+bestsize] == b[bestj+bestsize]` extension; the fuel `ahi` bounds the
number of iterations (each one raises `bi + bs` toward `ahi`). -/
def extendRight (a b : List Char) (ahi bhi bi bj : ℕ) : ℕ → ℕ → ℕ
  | 0, bs => bs
  | fuel + 1, bs =>
    if bi + bs < ahi ∧ bj + bs < bhi ∧ listGetD a (bi + bs) = listGetD b (bj + bs) then
      extendRight a b ahi bhi bi bj fuel (bs + 1)
    else bs

def findLongestMatch (a b : List Char) (b2j : List (Char × List ℕ))
    (alo ahi blo bhi : ℕ) : ℕ × ℕ × ℕ :=
  let core := flmCore a b2j alo ahi blo bhi
  let left := extendLeft a b alo blo core.1 core.2.1 core.2.2
  (left.1, left.2.1, extendRight a b ahi bhi left.1 left.2.1 ahi left.2.2)

/-- Total size of the matching blocks: the recursive interval split of
`get_matching_blocks`, summing block sizes (the only quantity `ratio`
needs). Each recursive call strictly shrinks the `a`-interval, so a fuel of
`a.length + b.length + 1` is always sufficient. -/
def matchTotal (a b : List Char) (b2j : List (Char × List ℕ)) :
    ℕ → ℕ → ℕ → ℕ → ℕ → ℕ
  | 0, _, _, _, _ => 0
  | fuel + 1, alo, ahi, blo, bhi =>
    let m := findLongestMatch a b b2j alo ahi blo bhi
    let i := m.1
    let j := m.2.1
    let k := m.2.2
    if k = 0 then 0
    else
      k + (if alo < i ∧ blo < j then matchTotal a b b2j fuel alo i blo j else 0)
        + (if i + k < ahi ∧ j + k < bhi then matchTotal a b b2j fuel (i + k) ahi (j + k) bhi else 0)

/-- `SequenceMatcher(None, a, b).ratio()` as an exact rational;
`_calculate_ratio` returns 1.0 when both sequences are empty. -/
def seqMatcherRatio (a b : List Char) : ℚ :=
  let m := matchTotal a b (b2jChain b) (a.length + b.length + 1) 0 a.length 0 b.length
  let t := a.length + b.length
  if t = 0 then 1 else (2 * m : ℚ) / t

/-- `similar(a, b)` from `exper_test.py` / `education_extract.py`:
the ratio on lowercased inputs. -/
def similar (a b : String) : ℚ :=
  seqMatcherRatio (lowerList a.toList) (lowerList b.toList)

/-- `fields_similar(field1, field2, threshold=0.7)` from `exper_test.py`. -/
def fields_similar (f1 f2 : String) : Bool :=
  if f1 = "" ∨ f2 = "" then false else (7 / 10 : ℚ) < similar f1 f2

/-- `degrees_similar(degree1, degree2, threshold=0.7)` from
`education_extract.py` (same body as `fields_similar`). -/
def degrees_similar (d1 d2 : String) : Bool :=
  if d1 = "" ∨ d2 = "" then false else (7 / 10 : ℚ) < similar d1 d2

/-! ### The boolean skill-expression engine (`skill_extract.py`)

`evaluate_resume` tokenizes its expression with
`re.findall(r'"[^"]+"|\(|\)|\b(?:and|or|not)\b', expr, re.IGNORECASE)`,
normalizes each token (quoted tokens: strip quotes, trim, lowercase;
others: lowercase), and evaluates with a two-stack shunting-yard loop.
The scanner below reproduces the left-to-right non-overlapping matching of
`findall` for this pattern, keeping whether each token was quoted.  A
quoted token's raw text is `'"' ++ content ++ '"'` with a non-empty
quote-free `content`, so `raw.strip('"')` is exactly `content`; keyword
tokens lowercase to their keyword.  Normalization is therefore recorded
per token kind. -/

/-- A raw token of the skill-expression scanner. -/
inductive SkTok where
  | quoted (content : List Char)
  | kwAnd
  | kwOr
  | kwNot
  | lp
  | rp
deriving DecidableEq

/-- Word characters for the regex `\b` boundary (ASCII `\w`). -/
def isWordChar (c : Char) : Bool := c.isAlphanum ∨ c = '_'

/-- Split a character list at its first `'"'`. -/
def splitAtQuote : List Char → Option (List Char × List Char)
  | [] => none
  | c :: cs =>
    if c = '"' then some ([], cs)
    else (splitAtQuote cs).map (fun p => (c :: p.1, p.2))

theorem splitAtQuote_length {l p r} (h : splitAtQuote l = some (p, r)) :
    r.length < l.length := by
  induction l generalizing p r with
  | nil => simp [splitAtQuote] at h
  | cons c cs ih =>
    by_cases hc : c = '"'
    · simp [splitAtQuote, hc] at h
      simp [← h.2]
    · simp only [splitAtQuote, hc, if_false, Option.map_eq_some'] at h
      obtain ⟨q, hq, he⟩ := h
      cases he
      exact Nat.lt_succ_of_lt (ih hq)

/-- Case-insensitive match of keyword `w` at the head of `l`, with a `\b`
word boundary on both sides (`prev` is the character just before `l`). -/
def matchesKw (w : List Char) (prev : Option Char) (l : List Char) : Bool :=
  (match prev with | none => true | some c => ! isWordChar c) &&
  decide (lowerList (l.take w.length) = w) &&
  (match l.drop w.length with | [] => true | c :: _ => ! isWordChar c)

/-- The keyword alternative `\b(?:and|or|not)\b` of the token pattern,
returning the token and the number of characters consumed. -/
def kwCheck (prev : Option Char) (l : List Char) : Option (SkTok × ℕ) :=
  if matchesKw ['a', 'n', 'd'] prev l then some (.kwAnd, 3)
  else if matchesKw ['o', 'r'] prev l then some (.kwOr, 2)
  else if matchesKw ['n', 'o', 't'] prev l then some (.kwNot, 3)
  else none

theorem kwCheck_pos {prev l t n} (h : kwCheck prev l = some (t, n)) : 0 < n := by
  unfold kwCheck at h
  split_ifs at h <;> simp_all <;> omega

/-- The last character consumed by a keyword token is a word character in
any case variant; only its word-character status feeds the next `\b` test. -/
def kwLastChar : SkTok → Char
  | .kwAnd => 'd'
  | .kwOr => 'r'
  | .kwNot => 't'
  | _ => ' '

/-- Left-to-right non-overlapping scan of
`"[^"]+"|\(|\)|\b(?:and|or|not)\b` (case-insensitive): at each position try
a quoted literal (nonempty quote-free content up to the next `'"'`), then a
parenthesis, then a keyword with word boundaries, else advance one
character.  Every step consumes at least one character, so the structural
fuel is sufficient whenever it exceeds the input length. -/
def scanSkills : ℕ → Option Char → List Char → List SkTok
  | 0, _, _ => []
  | fuel + 1, prev, l =>
    match l with
    | [] => []
    | c :: rest =>
      if c = '"' then
        match splitAtQuote rest with
        | some (content, rest') =>
          if content = [] then scanSkills fuel (some c) rest
          else .quoted content :: scanSkills fuel (some '"') rest'
        | none => scanSkills fuel (some c) rest
      else if c = '(' then .lp :: scanSkills fuel (some '(') rest
      else if c = ')' then .rp :: scanSkills fuel (some ')') rest
      else
        match kwCheck prev (c :: rest) with
        | some (t, n) => t :: scanSkills fuel (some (kwLastChar t)) ((c :: rest).drop n)
        | none => scanSkills fuel (some c) rest

/-- The token list of an expression string. -/
def skillsTokens (e : String) : List SkTok :=
  scanSkills (e.toList.length + 1) none e.toList

/-- Normalization of a quoted token's value, lines 59 and 77 of
`skill_extract.py`: `token.strip('"').strip().lower()` (the `strip('"')`
of the raw token yields the quote-free content). -/
def normalizeLit (content : List Char) : String := ⟨lowerList (pyStrip content)⟩

/-- Line 59: the set of required skills — normalized contents of all quoted
tokens, keeping only the ones that are nonempty after trimming. -/
def requiredSkills (e : String) : Finset String :=
  ((skillsTokens e).filterMap (fun t =>
    match t with
    | .quoted c => if pyStrip c = [] then none else some (normalizeLit c)
    | _ => none)).toFinset

/-- Line 63: re-normalization of the candidate skill set
(`{skill.strip().lower() for skill in resume_skills if skill ...}`). -/
def normSkills (s : Finset String) : Finset String :=
  (s.filter (fun x => x ≠ "")).image (fun x => (⟨lowerList (pyStrip x.toList)⟩ : String))

/-- Binary/unary operators of the evaluator. -/
inductive BOp where
  | band
  | bor
  | bnot
deriving DecidableEq

/-- A token as dispatched by the evaluation loop (lines 110-130). -/
inductive ETok where
  | op (o : BOp)
  | lp
  | rp
  | lit (s : String)
deriving DecidableEq

/-- An operator-stack entry: an operator or `'('`. -/
inductive StkE where
  | op (o : BOp)
  | lp
deriving DecidableEq

/-- Line 85: `precedence = {'not': 3, 'and': 2, 'or': 1}`. -/
def prec : BOp → ℕ
  | .bnot => 3
  | .band => 2
  | .bor => 1

/-- `precedence.get(operator_stack[-1], 0)` — `'('` is not in the dict. -/
def precStk : StkE → ℕ
  | .op o => prec o
  | .lp => 0

/-- The code path's classification of a NORMALIZED token string: the loop
tests the bare string, so a quoted literal whose normalized content is
`and`/`or`/`not`/`(`/`)` is dispatched as an operator or parenthesis. -/
def codeTok : SkTok → ETok
  | .quoted c =>
    let s := normalizeLit c
    if s = "and" then .op .band
    else if s = "or" then .op .bor
    else if s = "not" then .op .bnot
    else if s = "(" then .lp
    else if s = ")" then .rp
    else .lit s
  | .kwAnd => .op .band
  | .kwOr => .op .bor
  | .kwNot => .op .bnot
  | .lp => .lp
  | .rp => .rp

/-- The specified classification (§4.4 of the spec): every quoted literal
pushes a membership test; only unquoted keywords are operators. -/
def specTok : SkTok → ETok
  | .quoted c => .lit (normalizeLit c)
  | .kwAnd => .op .band
  | .kwOr => .op .bor
  | .kwNot => .op .bnot
  | .lp => .lp
  | .rp => .rp

/-- `apply_operator` (lines 91-107): `not` pops one operand, `and`/`or`
pop right then left; an underfull operand stack raises (`none`). -/
def applyOp (o : BOp) (st : List Bool) : Option (List Bool) :=
  match o, st with
  | .bnot, x :: rest => some ((!x) :: rest)
  | .bnot, [] => none
  | .band, r :: l :: rest => some ((l && r) :: rest)
  | .bor, r :: l :: rest => some ((l || r) :: rest)
  | _, _ => none

/-- Lines 112-114: pop-and-apply while the stack top is not `'('` and has
precedence ≥ the incoming operator's. -/
def popGE (t : BOp) : List StkE → List Bool → Option (List StkE × List Bool)
  | [], st => some ([], st)
  | s :: ops, st =>
    if s ≠ StkE.lp ∧ prec t ≤ precStk s then
      match s with
      | .op o =>
        match applyOp o st with
        | some st' => popGE t ops st'
        | none => none
      | .lp => none
    else some (s :: ops, st)

/-- Lines 118-125: on `')'`, pop-and-apply until `'('`, then remove it;
an exhausted stack is a mismatched parenthesis (error). -/
def popToLp : List StkE → List Bool → Option (List StkE × List Bool)
  | [], _ => none
  | s :: ops, st =>
    match s with
    | .lp => some (ops, st)
    | .op o =>
      match applyOp o st with
      | some st' => popToLp ops st'
      | none => none

/-- Lines 132-137: drain the operator stack; a leftover `'('` is a
mismatched parenthesis (error). -/
def drainOps : List StkE → List Bool → Option (List Bool)
  | [], st => some st
  | s :: ops, st =>
    match s with
    | .lp => none
    | .op o =>
      match applyOp o st with
      | some st' => drainOps ops st'
      | none => none

/-- One iteration of the evaluation loop (lines 110-130). -/
def evalStep (skills : Finset String) (acc : Option (List StkE × List Bool)) (t : ETok) :
    Option (List StkE × List Bool) :=
  match acc with
  | none => none
  | some (ops, st) =>
    match t with
    | .op o => (popGE o ops st).map (fun p => (StkE.op o :: p.1, p.2))
    | .lp => some (StkE.lp :: ops, st)
    | .rp => popToLp ops st
    | .lit s => some (ops, decide (s ∈ skills) :: st)

/-- Lines 88-143: the full two-stack evaluation of a classified token list;
`none` models a raised `ValueError` (underfull stack, mismatched
parentheses, or no result). -/
def evalToks (skills : Finset String) (ts : List ETok) : Option Bool :=
  match ts.foldl (evalStep skills) (some ([], [])) with
  | none => none
  | some (ops, st) =>
    match drainOps ops st with
    | none => none
    | some st' =>
      match st' with
      | [] => none
      | b :: _ => some b

/-- The evaluation core of `evaluate_resume` on the code's normalized
token strings. -/
def evalCore (e : String) (skills : Finset String) : Option Bool :=
  evalToks (normSkills skills) ((skillsTokens e).map codeTok)

/-- Lines 146-147: the literal-overlap percentage. -/
def matchScore (e : String) (sk : Finset String) : ℚ :=
  let req := requiredSkills e
  if req = ∅ then 0 else ((req ∩ normSkills sk).card : ℚ) / req.card * 100

/-- `evaluate_resume(skills_expression, resume_skills)` (lines 51-154):
guards for an empty or `'False'` expression and an empty token list, the
two-stack evaluation, the literal-overlap score, and the catch-all that
turns any evaluation error into `(False, 0.0)`. -/
def evaluate_resume (e : String) (skills : Finset String) : Bool × ℚ :=
  if e = "" ∨ e = "False" then (false, 0)
  else if skillsTokens e = [] then (false, 0)
  else
    match evalCore e skills with
    | none => (false, 0)
    | some b => (b, round2 (matchScore e skills))

/-- The evaluator as the spec describes it (quoted literals always push a
membership test), with the same guards and fail-closed policy. -/
def spec_evaluate_resume (e : String) (skills : Finset String) : Bool × ℚ :=
  if e = "" ∨ e = "False" then (false, 0)
  else if skillsTokens e = [] then (false, 0)
  else
    match evalToks (normSkills skills) ((skillsTokens e).map specTok) with
    | none => (false, 0)
    | some b => (b, round2 (matchScore e skills))

/-- The score as the spec states it: `|required ∩ candidate|/|required| * 100`
rounded to 2 decimals, `0.0` for an empty requirement set. -/
def spec_skill_score (e : String) (sk : Finset String) : ℚ :=
  let req := requiredSkills e
  if req = ∅ then 0
  else round2 (((req ∩ normSkills sk).card : ℚ) / req.card * 100)

/-! ### The experience matcher and scorer (`exper_test.py`) -/

/-- A Python number: `int` or finite `float` (IEEE specials are outside the
model; the data reaching these functions originates from `ast.literal_eval`
of finite literals). -/
inductive PyNum where
  | pint (z : ℤ)
  | pfloat (q : ℚ)
deriving DecidableEq

def PyNum.toRat : PyNum → ℚ
  | .pint z => z
  | .pfloat q => q

def PyNum.isFloat : PyNum → Bool
  | .pint _ => false
  | .pfloat _ => true

/-- A raised Python error: `floatNoneCmp` is the custom
`FloatNoneComparisonError`; `typeErr b` is a `TypeError` whose flag `b`
records whether its message contains
`"not supported between instances of 'float' and 'NoneType'"`
(the pattern tested on line 237 of `exper_test.py`). -/
inductive PyErr where
  | floatNoneCmp
  | typeErr (floatNonePattern : Bool)
deriving DecidableEq

/-- `int + int` stays `int`, anything involving a `float` is a `float`
(needed because the error-message pattern names the `float` type). -/
def pyAdd (a b : PyNum) : PyNum :=
  match a, b with
  | .pint x, .pint y => .pint (x + y)
  | _, _ => .pfloat (a.toRat + b.toRat)

def pyLtB (a b : PyNum) : Bool := a.toRat < b.toRat

def pyLeB (a b : PyNum) : Bool := a.toRat ≤ b.toRat

/-- `x < m` where `m` may be Python `None`: a `None` right operand raises a
`TypeError` whose message matches the `'float' and 'NoneType'` pattern
exactly when `x` is a `float` (an `int` gives `'int' and 'NoneType'`). -/
def pyLtNone (a : PyNum) (m : Option PyNum) : Except PyErr Bool :=
  match m with
  | some v => .ok (pyLtB a v)
  | none => .error (.typeErr a.isFloat)

/-- `x >= m` with a possibly-`None` right operand (same error rule). -/
def pyGeNone (a : PyNum) (m : Option PyNum) : Except PyErr Bool :=
  match m with
  | some v => .ok (pyLeB v a)
  | none => .error (.typeErr a.isFloat)

/-- A resume experience record as a dict: each field is
(key present? ↦ value, which may itself be `None`). -/
structure ExpEntry where
  years : Option (Option PyNum) := none
  field : Option (Option String) := none
deriving DecidableEq

/-- `exp.get("years", 0)`: absent key defaults to the int `0`; a present
`None` stays `None`. -/
def entryYears (e : ExpEntry) : Option PyNum := e.years.getD (some (.pint 0))

/-- `exp.get("field")`. -/
def entryField (e : ExpEntry) : Option String := e.field.getD none

/-- The JD experience requirement as a dict of optional keys. -/
structure JDExp where
  required : Option Bool := none
  min_years : Option (Option PyNum) := none
  max_years : Option (Option PyNum) := none
  fields : Option (List String) := none
deriving DecidableEq

/-- Python truthiness of the requirement dict: `not jd_exp` is true for an
empty dict (all keys absent). -/
def JDExp.isEmptyDict (j : JDExp) : Bool :=
  j.required = none ∧ j.min_years = none ∧ j.max_years = none ∧ j.fields = none

/-- `jd_exp.get("min_years", 0)`: absent ↦ int `0`; a present `None` stays
`None` (and later poisons comparisons). -/
def jdMinOf (j : JDExp) : Option PyNum := j.min_years.getD (some (.pint 0))

/-- `jd_exp.get("max_years", float('inf'))` followed by the explicit
`None ↦ float('inf')` fix-up; `none` here encodes `float('inf')`. -/
def jdMaxOf (j : JDExp) : Option PyNum :=
  match j.max_years with
  | none => none
  | some none => none
  | some (some v) => some v

/-- `jd_exp.get("fields", [])`. -/
def jdFieldsOf (j : JDExp) : List String := j.fields.getD []

/-- `normalize_field_name(field)`: `field.lower() if field else ""`. -/
def normalize_field_name (f : Option String) : String :=
  match f with
  | some s => if s = "" then "" else lowerStr s
  | none => ""

/-- `sum(exp.get("years", 0) for exp in resume_exp)` starting from the int
`0`; a `None` years value raises a `TypeError`
(`unsupported operand type(s) for +`), whose message does NOT match the
comparison pattern of line 237. -/
def pySumAux (acc : PyNum) : List ExpEntry → Except PyErr PyNum
  | [] => .ok acc
  | e :: rest =>
    match entryYears e with
    | none => .error (.typeErr false)
    | some v => pySumAux (pyAdd acc v) rest

def pySum (l : List ExpEntry) : Except PyErr PyNum := pySumAux (.pint 0) l

/-- The field-match test used per (required field, record) pair by
`evaluate_experience` (lines 148-153): fuzzy similarity only in fuzzy mode,
substring containment otherwise. -/
def expFieldHit (use_fuzzy : Bool) (f : String) (en : ExpEntry) : Bool :=
  if use_fuzzy then fields_similar f (normalize_field_name (entryField en))
  else isSubstr (lowerStr f).toList (normalize_field_name (entryField en)).toList

/-- The field-match test used per pair by `score_experience_match`
(lines 245-253): a failed fuzzy test FALLS BACK to the substring test. -/
def scoreFieldHit (use_fuzzy : Bool) (f : String) (en : ExpEntry) : Bool :=
  (use_fuzzy && fields_similar f (normalize_field_name (entryField en))) ||
  isSubstr (lowerStr f).toList (normalize_field_name (entryField en)).toList

/-- `evaluate_experience(jd_exp, resume_exp, use_fuzzy_matching=True)`
(lines 120-163).  It has no try/except: a `None` years value or a `None`
`min_years` raises a plain `TypeError` to the caller. -/
def evaluate_experience (jd : Option JDExp) (resume : List ExpEntry)
    (use_fuzzy : Bool := true) : Except PyErr Bool :=
  match jd with
  | none => .ok false
  | some j =>
    if j.isEmptyDict then .ok false
    else if ¬ (j.required.getD false) then .ok true
    else if resume = [] then .ok false
    else
      match pySum resume with
      | .error err => .error err
      | .ok total =>
        match pyLtNone total (jdMinOf j) with
        | .error err => .error err
        | .ok ltMin =>
          let gtMax := match jdMaxOf j with | none => false | some v => pyLtB v total
          if ltMin || gtMax then .ok false
          else
            let fs := jdFieldsOf j
            if fs ≠ [] then
              if fs.any (fun f => resume.any (expFieldHit use_fuzzy f)) then .ok true
              else .ok false
            else .ok true

/-- `score_experience_match(jd_exp, resume_exp, use_fuzzy_matching=True)`
(lines 194-266).  The sum on line 217 sits OUTSIDE the try block; the try
wraps only the comparisons, and converts a `TypeError` to
`FloatNoneComparisonError` exactly when its message matches the
`'float' and 'NoneType'` pattern, re-raising it otherwise. -/
def score_experience_match (jd : Option JDExp) (resume : List ExpEntry)
    (use_fuzzy : Bool := true) : Except PyErr ℚ :=
  match jd with
  | none => .ok 0
  | some j =>
    if j.isEmptyDict ∨ resume = [] then .ok 0
    else
      let jdMin := jdMinOf j
      let jdMax := jdMaxOf j
      let fs := jdFieldsOf j
      match pySum resume with
      | .error err => .error err
      | .ok total =>
        match pyGeNone total jdMin with
        | .error (.typeErr true) => .error .floatNoneCmp
        | .error err => .error err
        | .ok meetsMin =>
          let meetsMax := match jdMax with | none => true | some v => pyLeB total v
          let pts : ℚ :=
            if meetsMin && meetsMax then 30
            else if (match jdMax with | none => false | some v => pyLtB v total) then 20
            else if (match jdMin with
                     | some v => decide (v.toRat * (4 / 5) ≤ total.toRat)
                     | none => false) then 15
            else 0
          let fieldScore : ℚ :=
            if fs ≠ [] then
              ((fs.filter (fun f => resume.any (scoreFieldHit use_fuzzy f))).length : ℚ)
                / fs.length * 70
            else 70
          .ok (round2 (min (pts + fieldScore) 100))

/-- The mathematical total of the records' years (matching `pySum` on
well-typed records). -/
def totalYearsQ (resume : List ExpEntry) : ℚ :=
  (resume.map (fun e => ((entryYears e).getD (.pint 0)).toRat)).sum

/-- `min_years` of the requirement as a rational (under the well-typedness
hypothesis that a present `min_years` value is a number). -/
def jdMinQ (j : JDExp) : ℚ :=
  match jdMinOf j with
  | some v => v.toRat
  | none => 0

/-- The pass/fail rule of §4.6 of the spec, as the claim states it:
not required ⇒ pass; required with no records ⇒ fail; otherwise the total
of all records' years must lie in `[min_years, max_years]` (absent
`max_years` unbounded) and, when fields are listed, some required field
must match some record's field (fuzzy in fuzzy mode, substring
otherwise). -/
def spec_experience_pass (j : JDExp) (resume : List ExpEntry) (use_fuzzy : Bool) : Bool :=
  if ¬ (j.required.getD false) then true
  else if resume = [] then false
  else
    let total := totalYearsQ resume
    let inRange := decide (jdMinQ j ≤ total) &&
      (match jdMaxOf j with | none => true | some v => decide (total ≤ v.toRat))
    if ¬ inRange then false
    else
      let fs := jdFieldsOf j
      fs.isEmpty || fs.any (fun f => resume.any (expFieldHit use_fuzzy f))

/-- The score of §4.6 of the spec, as claim C6 states it: a years component
(30 in range / 20 above a finite max / 15 at ≥ 0.8·min / else 0) plus a
fields component (70 when no fields required, else the matched fraction of
70), capped at 100 and rounded to 2 decimals. -/
def spec_experience_score (j : JDExp) (resume : List ExpEntry) (use_fuzzy : Bool) : ℚ :=
  let total := totalYearsQ resume
  let yearsPts : ℚ :=
    if decide (jdMinQ j ≤ total) &&
        (match jdMaxOf j with | none => true | some v => decide (total ≤ v.toRat)) then 30
    else if (match jdMaxOf j with | none => false | some v => decide (v.toRat < total)) then 20
    else if jdMinQ j * (4 / 5) ≤ total then 15
    else 0
  let fs := jdFieldsOf j
  let fieldPts : ℚ :=
    if fs = [] then 70
    else ((fs.filter (fun f => resume.any (scoreFieldHit use_fuzzy f))).length : ℚ)
      / fs.length * 70
  round2 (min (yearsPts + fieldPts) 100)

/-! ### Education matching (`education_extract.py`, `app.py`) -/

/-- `degree_rank` (insertion order preserved, as Python dict iteration is). -/
def degree_rank : List (String × ℚ) :=
  [("phd", 4), ("mtech", 3), ("msc", 3), ("masters", 3),
   ("btech", 2), ("bsc", 2), ("bachelor", 2),
   ("diploma", 1),
   ("pu", 1 / 2), ("12th", 1 / 2), ("puc", 1 / 2),
   ("10th", 2 / 5), ("sslc", 2 / 5)]

/-- `normalize_degree_name(degree)`: `None`/empty is falsy; otherwise the
first table key occurring as a substring of the lowercased input. -/
def normalize_degree_name (d : Option String) : Option String :=
  match d with
  | none => none
  | some s =>
    if s = "" then none
    else ((degree_rank.find? (fun p => isSubstr p.1.toList (lowerStr s).toList)).map
      (fun p => p.1))

/-- `degree_rank.get(key, 0)`. -/
def rankOf (k : String) : ℚ :=
  match degree_rank.find? (fun p => p.1 = k) with
  | some p => p.2
  | none => 0

/-- A Python value fed to `parse_cgpa`: `None`, a number, or a string. -/
inductive PyVal where
  | vnone
  | vint (z : ℤ)
  | vfloat (q : ℚ)
  | vstr (s : String)
deriving DecidableEq

def digitVal (c : Char) : ℕ := c.toNat - '0'.toNat

/-- The `digitpart` of Python's float-literal grammar after its first
digit: further digits, possibly in groups separated by single
underscores.  Returns the accumulated value, the digit count and the
unconsumed rest. -/
def parseDigitsAux : ℕ → ℕ → ℕ → List Char → ℕ × ℕ × List Char
  | 0, v, n, l => (v, n, l)
  | fuel + 1, v, n, l =>
    match l with
    | [] => (v, n, [])
    | c :: rest =>
      if c.isDigit then parseDigitsAux fuel (10 * v + digitVal c) (n + 1) rest
      else if c = '_' then
        match rest with
        | d :: rest' =>
          if d.isDigit then parseDigitsAux fuel (10 * v + digitVal d) (n + 1) rest'
          else (v, n, c :: rest)
        | [] => (v, n, [c])
      else (v, n, c :: rest)

/-- A `digitpart`: at least one digit, then `parseDigitsAux` (whose fuel,
one unit per consumed character, is sufficient at the input length). -/
def parseUDigits (l : List Char) : Option (ℕ × ℕ × List Char) :=
  match l with
  | c :: rest =>
    if c.isDigit then some (parseDigitsAux (rest.length + 1) (digitVal c) 1 rest) else none
  | [] => none

/-- The core of Python's `float(str)` on an already-trimmed string:
`[sign] (digitpart ['.' [digitpart]] | '.' digitpart) [('e'|'E') [sign]
digitpart]`, the whole input consumed.  `inf`/`nan` literals and non-ASCII
digits are outside the model. -/
def pyParseFloatCore (l : List Char) : Option ℚ :=
  let sgn : ℚ × List Char :=
    match l with
    | '+' :: r => (1, r)
    | '-' :: r => (-1, r)
    | _ => (1, l)
  let mant : Option (ℚ × List Char) :=
    match sgn.2 with
    | '.' :: r =>
      match parseUDigits r with
      | some (v, n, rest) => some ((v : ℚ) / 10 ^ n, rest)
      | none => none
    | l1 =>
      match parseUDigits l1 with
      | some (iv, _, rest) =>
        match rest with
        | '.' :: r2 =>
          match parseUDigits r2 with
          | some (fv, fn, rest2) => some ((iv : ℚ) + (fv : ℚ) / 10 ^ fn, rest2)
          | none => some ((iv : ℚ), r2)
        | _ => some ((iv : ℚ), rest)
      | none => none
  match mant with
  | none => none
  | some (m, rest) =>
    match rest with
    | [] => some (sgn.1 * m)
    | e :: r =>
      if e = 'e' ∨ e = 'E' then
        let es : ℤ × List Char :=
          match r with
          | '+' :: rr => (1, rr)
          | '-' :: rr => (-1, rr)
          | _ => (1, r)
        match parseUDigits es.2 with
        | some (ev, _, rest2) =>
          if rest2 = [] then some (sgn.1 * m * (10 : ℚ) ^ (es.1 * ev)) else none
        | none => none
      else none

/-- `float(s)` for a string: Python's own surrounding-whitespace strip,
then the literal grammar. -/
def pyParseFloat (l : List Char) : Option ℚ := pyParseFloatCore (pyStrip l)

/-- `parse_cgpa(cgpa)` (lines 32-39 of `education_extract.py`, duplicated
in `app.py`): falsy input (`None`, `0`, `0.0`, `""`) returns `None`;
otherwise `float(str(cgpa).strip().replace('%',''))`, with any failure
caught to `None`.  For a numeric input, `float(str(x))` round-trips to the
same value. -/
def parse_cgpa (v : PyVal) : Option PyNum :=
  match v with
  | .vnone => none
  | .vint z => if z = 0 then none else some (.pfloat z)
  | .vfloat q => if q = 0 then none else some (.pfloat q)
  | .vstr s =>
    if s = "" then none
    else (pyParseFloat ((pyStrip s.toList).filter (fun c => c ≠ '%'))).map .pfloat

/-- Modelled from the claim's wording, for comparison: parse a CGPA from a
number or numeric string, stripping one TRAILING `%`; failure to parse
yields absent. -/
def spec_parse_cgpa (v : PyVal) : Option PyNum :=
  match v with
  | .vnone => none
  | .vint z => some (.pfloat z)
  | .vfloat q => some (.pfloat q)
  | .vstr s =>
    let t := pyStrip s.toList
    let t2 := if t.getLast? = some '%' then t.dropLast else t
    (pyParseFloat t2).map .pfloat

/-- A per-level JD education requirement dict. -/
structure EduReq where
  required : Option Bool := none
  degree : Option (Option String) := none
  cgpa : Option (Option PyNum) := none
deriving DecidableEq

/-- A resume education record after preprocessing: `level` is mandatory
(`entry["level"]`), and `cgpa` is the result of `parse_cgpa` (the record is
modelled post-`preprocess_resume_data`, as on the scoring path). -/
structure EduRecord where
  level : String
  degree : Option (Option String) := none
  cgpa : Option PyNum := none
deriving DecidableEq

/-- `USE_FUZZY_MATCHING = True`. -/
def USE_FUZZY_MATCHING : Bool := true

/-- The CGPA tail of `education_level_match` (lines 101-113): a specified
minimum requires a present record CGPA that is not below it. -/
def cgpaCheck (jd : EduReq) (r : EduRecord) : Bool :=
  match jd.cgpa.getD none with
  | none => true
  | some jc =>
    match r.cgpa with
    | none => false
    | some rc => ! pyLtB rc jc

/-- `education_level_match(jd_entry, resume_entry, level)` (lines 79-113 of
`education_extract.py`, the copy imported by `app.py`). -/
def education_level_match (jd : EduReq) (resume : Option EduRecord) (level : String) :
    Bool :=
  if ¬ (jd.required.getD false) then true
  else
    match resume with
    | none => false
    | some r =>
      if level = "UG" ∨ level = "PG" then
        let jdDegRaw := jd.degree.getD none
        let recDegRaw := r.degree.getD none
        let jdDeg := normalize_degree_name jdDegRaw
        let recDeg := normalize_degree_name recDegRaw
        if jdDeg = none ∨ recDeg = none then false
        else if rankOf (recDeg.getD "") < rankOf (jdDeg.getD "") then false
        else if (match jdDegRaw with | some s => s ≠ "" | none => false : Bool) then
          if USE_FUZZY_MATCHING then
            if ¬ degrees_similar (jdDegRaw.getD "") (recDegRaw.getD "") then false
            else cgpaCheck jd r
          else
            if ¬ isSubstr (lowerStr (jdDegRaw.getD "")).toList
                (lowerStr (recDegRaw.getD "")).toList then false
            else cgpaCheck jd r
        else cgpaCheck jd r
      else cgpaCheck jd r

/-- `EDUCATION_LEVEL_WEIGHTS` (iteration order preserved). -/
def EDUCATION_LEVEL_WEIGHTS : List (String × ℚ) :=
  [("10th", 1 / 10), ("PU", 2 / 10), ("UG", 5 / 10), ("PG", 2 / 10)]

/-- The JD education criteria: a dict over the four levels. -/
structure JDEducation where
  lvl10 : Option EduReq := none
  lvlPU : Option EduReq := none
  lvlUG : Option EduReq := none
  lvlPG : Option EduReq := none
deriving DecidableEq

/-- `jd_education.get(level, {"required": False})`. -/
def jdEduGet (jd : JDEducation) (level : String) : EduReq :=
  (if level = "10th" then jd.lvl10
   else if level = "PU" then jd.lvlPU
   else if level = "UG" then jd.lvlUG
   else if level = "PG" then jd.lvlPG
   else none).getD ⟨some false, none, none⟩

/-- `get_resume_entry(resume_list, level_name)`. -/
def get_resume_entry (l : List EduRecord) (name : String) : Option EduRecord :=
  l.find? (fun e => lowerStr e.level = lowerStr name)

/-- `evaluate_education_score(jd_education, resume_education)` (app.py
lines 259-277); in this typed model the guarded comparisons cannot raise,
so the catch-all is never taken. -/
def evaluate_education_score (jd : JDEducation) (resume : List EduRecord) : ℚ :=
  let acc := EDUCATION_LEVEL_WEIGHTS.foldl
    (fun (acc : ℚ × ℚ) p =>
      ((if education_level_match (jdEduGet jd p.1) (get_resume_entry resume p.1) p.1
        then acc.1 + p.2 else acc.1), acc.2 + p.2))
    (0, 0)
  if 0 < acc.2 then round2 (acc.1 / acc.2 * 100) else 0

/-- `education_result` (app.py lines 482-486): the conjunction of
`education_level_match` over the four levels. -/
def education_result (jd : JDEducation) (resume : List EduRecord) : Bool :=
  (["10th", "PU", "UG", "PG"] : List String).all
    (fun level => education_level_match (jdEduGet jd level) (get_resume_entry resume level) level)

/-! ### Aggregation (`app.py` lines 459-494) -/

/-- The aggregation of the `upload` handler: `experience` is `none` when
experience evaluation was skipped (so `experience_result` keeps its default
`True` and `experience_score` stays `None`, excluded from the mean). -/
def aggregate (skills_result : Bool) (match_count : ℚ) (education_res : Bool)
    (education_score : ℚ) (experience : Option (Bool × ℚ)) : String × ℚ :=
  let experience_result := (experience.map Prod.fst).getD true
  let scores : List ℚ :=
    [some match_count, some education_score, experience.map Prod.snd].filterMap id
  let overall_result := if skills_result && education_res && experience_result
    then "Pass" else "Fail"
  let overall_score : ℚ := if scores = [] then 0 else scores.sum / scores.length
  (overall_result, overall_score)

/-! ### Helper lemmas -/

theorem round2_intCast (n : ℤ) : round2 (n : ℚ) = n := by
  rw [round2, show ((n : ℚ) * 100) = ((n * 100 : ℤ) : ℚ) by push_cast; ring,
    round_intCast]
  push_cast
  rw [mul_div_assoc]
  norm_num

/-- Evaluation helper for `fields_similar` on concrete strings: reduces the
fuzzy test to the (kernel-computable) total match count and a rational
comparison. -/
theorem fields_similar_eval {f g : String} {m t : ℕ}
    (hm : matchTotal (lowerList f.toList) (lowerList g.toList)
      (b2jChain (lowerList g.toList))
      ((lowerList f.toList).length + (lowerList g.toList).length + 1) 0
      (lowerList f.toList).length 0 (lowerList g.toList).length = m)
    (ht : (lowerList f.toList).length + (lowerList g.toList).length = t)
    (hf : f ≠ "") (hg : g ≠ "") (h0 : t ≠ 0) :
    fields_similar f g = decide ((7 / 10 : ℚ) < (2 * m : ℚ) / t) := by
  unfold fields_similar similar seqMatcherRatio
  rw [if_neg (by simp [hf, hg])]
  rw [hm, ht, if_neg h0]

/-! ### Claim C7 — aggregation -/

/-- **C7.** `overall_result` is `Pass` iff the skills and education matches
hold and the experience match holds or was not evaluated; `overall_score`
is the unweighted mean of the present dimension scores (two when
experience is skipped, three otherwise); skills 80 and education 60 with
experience skipped average to 70. -/
theorem claim_C7 :
    (∀ sr (mc : ℚ) er (es : ℚ) exp,
        ((aggregate sr mc er es exp).1 = "Pass" ↔
          (sr && er && (exp.map Prod.fst).getD true) = true)) ∧
    (∀ sr (mc : ℚ) er (es : ℚ),
        (aggregate sr mc er es none).2 = (mc + es) / 2) ∧
    (∀ sr (mc : ℚ) er (es : ℚ) b (q : ℚ),
        (aggregate sr mc er es (some (b, q))).2 = (mc + es + q) / 3) ∧
    (aggregate true 80 true 60 none).2 = 70 := by
  refine ⟨?_, ?_, ?_, ?_⟩
  · intro sr mc er es exp
    cases exp with
    | none =>
      simp only [aggregate, Option.map_none', Option.getD_none, Bool.and_true]
      constructor
      · intro h
        by_contra hb
        simp [hb] at h
      · intro h
        simp [h]
    | some p =>
      simp only [aggregate, Option.map_some', Option.getD_some]
      constructor
      · intro h
        by_contra hb
        simp [hb] at h
      · intro h
        simp [h]
  · intro sr mc er es
    simp [aggregate]
  · intro sr mc er es b q
    simp [aggregate]
    ring
  · simp [aggregate]
    norm_num

/-! ### Experience lemmas and claims C4, C5, C6, C10 -/

theorem pyAdd_toRat (a b : PyNum) : (pyAdd a b).toRat = a.toRat + b.toRat := by
  cases a <;> cases b <;> simp [pyAdd, PyNum.toRat] <;> push_cast <;> ring

theorem totalYearsQ_cons (e : ExpEntry) (rest : List ExpEntry) :
    totalYearsQ (e :: rest) = ((entryYears e).getD (.pint 0)).toRat + totalYearsQ rest := by
  simp [totalYearsQ]

theorem entryYears_of_typed {e : ExpEntry} (h : e.years ≠ some none) :
    ∃ y, entryYears e = some y := by
  unfold entryYears
  cases hy : e.years with
  | none => exact ⟨.pint 0, rfl⟩
  | some o =>
    cases o with
    | none => exact absurd hy h
    | some v => exact ⟨v, rfl⟩

theorem pySumAux_ok (l : List ExpEntry) (acc : PyNum)
    (h : ∀ e ∈ l, e.years ≠ some none) :
    ∃ v, pySumAux acc l = .ok v ∧ v.toRat = acc.toRat + totalYearsQ l := by
  induction l generalizing acc with
  | nil => exact ⟨acc, rfl, by simp [totalYearsQ]⟩
  | cons e rest ih =>
    obtain ⟨y, hy⟩ := entryYears_of_typed (h e (by simp))
    obtain ⟨v, hv, hvr⟩ := ih (pyAdd acc y) (fun e' he' => h e' (by simp [he']))
    refine ⟨v, ?_, ?_⟩
    · rw [pySumAux, hy]
      exact hv
    · rw [hvr, pyAdd_toRat, totalYearsQ_cons, hy]
      simp
      ring

theorem pySum_ok (l : List ExpEntry) (h : ∀ e ∈ l, e.years ≠ some none) :
    ∃ v, pySum l = .ok v ∧ v.toRat = totalYearsQ l := by
  obtain ⟨v, hv, hvr⟩ := pySumAux_ok l (.pint 0) h
  exact ⟨v, hv, by simpa [PyNum.toRat] using hvr⟩

theorem jdMinOf_of_typed {j : JDExp} (h : j.min_years ≠ some none) :
    ∃ w, jdMinOf j = some w ∧ w.toRat = jdMinQ j := by
  unfold jdMinQ jdMinOf
  cases hm : j.min_years with
  | none => exact ⟨.pint 0, rfl, by simp [PyNum.toRat]⟩
  | some o =>
    cases o with
    | none => exact absurd hm h
    | some w => exact ⟨w, rfl, by simp⟩

/-- The pass/fail characterization of `evaluate_experience` on a present,
non-empty, well-typed requirement and well-typed records. -/
theorem evaluate_experience_eq_spec (j : JDExp) (resume : List ExpEntry) (fuzzy : Bool)
    (hne : j.isEmptyDict = false) (hmin : j.min_years ≠ some none)
    (hys : ∀ e ∈ resume, e.years ≠ some none) :
    evaluate_experience (some j) resume fuzzy = .ok (spec_experience_pass j resume fuzzy) := by
  unfold evaluate_experience spec_experience_pass
  simp only [hne, Bool.false_eq_true, if_false]
  cases hr : j.required.getD false with
  | false => simp [hr]
  | true =>
    simp only [hr, not_true, Bool.true_eq_false, if_false, ite_not]
    by_cases hres : resume = []
    · simp [hres]
    · simp only [hres, if_false, if_neg hres]
      obtain ⟨v, hv, hvr⟩ := pySum_ok resume hys
      obtain ⟨w, hw, hwq⟩ := jdMinOf_of_typed hmin
      rw [hv, hw]
      simp only [pyLtNone]
      have hlt : (pyLtB v w || (match jdMaxOf j with
          | none => false
          | some m => pyLtB m v)) =
          ! (decide (jdMinQ j ≤ totalYearsQ resume) &&
            (match jdMaxOf j with | none => true | some m => decide (totalYearsQ resume ≤ m.toRat))) := by
        cases hmax : jdMaxOf j with
        | none =>
          simp only [pyLtB, hvr, hwq, Bool.or_false, Bool.and_true]
          by_cases h1 : jdMinQ j ≤ totalYearsQ resume
          · simp [h1, not_lt.mpr h1]
          · simp [h1, not_le.mp h1]
        | some m =>
          simp only [pyLtB, hvr, hwq]
          by_cases h1 : jdMinQ j ≤ totalYearsQ resume
          · by_cases h2 : totalYearsQ resume ≤ m.toRat
            · simp [h1, h2, not_lt.mpr h1, not_lt.mpr h2]
            · simp [h1, h2, not_lt.mpr h1, not_le.mp h2]
          · simp [h1, not_le.mp h1]
      rw [hlt]
      cases hb : (decide (jdMinQ j ≤ totalYearsQ resume) &&
          (match jdMaxOf j with | none => true | some m => decide (totalYearsQ resume ≤ m.toRat))) with
      | false => simp
      | true =>
        simp only [Bool.not_true, Bool.false_eq_true, if_false, not_false_iff, if_true,
          Bool.not_eq_true', if_neg]
        cases hfs : jdFieldsOf j with
        | nil => simp
        | cons f fs =>
          by_cases hany : ((f :: fs).any fun fld => resume.any (expFieldHit fuzzy fld)) = true <;>
            simp [hany]

/-- **C5 (amended).** For a present, non-empty requirement whose
`min_years` is numeric-or-absent and records whose `years` are
numeric-or-absent, `evaluate_experience` returns exactly the pass/fail
value the claim describes: not required ⇒ pass, required with no records ⇒
fail, else total years in `[min, max]` and (when fields are listed) some
field/record pair matching — fuzzy-only in fuzzy mode, substring in
non-fuzzy mode. -/
theorem claim_C5 (j : JDExp) (resume : List ExpEntry) (fuzzy : Bool)
    (hne : j.isEmptyDict = false) (hmin : j.min_years ≠ some none)
    (hys : ∀ e ∈ resume, e.years ≠ some none) :
    evaluate_experience (some j) resume fuzzy = .ok (spec_experience_pass j resume fuzzy) :=
  evaluate_experience_eq_spec j resume fuzzy hne hmin hys

/-- **C5 counterexample.** An empty requirement dict is not marked
required, yet `evaluate_experience` returns `False` for it (the
`if not jd_exp` guard), against the claim's "for every requirement not
marked required it returns true". -/
theorem claim_C5_counterexample :
    (JDExp.required ⟨none, none, none, none⟩).getD false = false ∧
    evaluate_experience (some ⟨none, none, none, none⟩)
      [⟨some (some (.pfloat 1)), none⟩] true = .ok false := by
  constructor
  · rfl
  · rfl

/-- **C5 witness.** The amended claim applied at a concrete requirement
(required, 1–∞ years, no fields) and a concrete one-record list. -/
theorem claim_C5_witness :
    evaluate_experience (some ⟨some true, some (some (.pint 1)), none, none⟩)
      [⟨some (some (.pfloat 2)), none⟩] true =
    .ok (spec_experience_pass ⟨some true, some (some (.pint 1)), none, none⟩
      [⟨some (some (.pfloat 2)), none⟩] true) :=
  claim_C5 _ _ _ (by decide) (by decide) (by decide)

/-- The score characterization of `score_experience_match` on a present,
non-empty, well-typed requirement and non-empty well-typed records. -/
theorem score_experience_match_eq_spec (j : JDExp) (resume : List ExpEntry) (fuzzy : Bool)
    (hne : j.isEmptyDict = false) (hres : resume ≠ []) (hmin : j.min_years ≠ some none)
    (hys : ∀ e ∈ resume, e.years ≠ some none) :
    score_experience_match (some j) resume fuzzy =
      .ok (spec_experience_score j resume fuzzy) := by
  unfold score_experience_match spec_experience_score
  have hcond : ¬(j.isEmptyDict = true ∨ resume = []) := by simp [hne, hres]
  simp only [if_neg hcond]
  obtain ⟨v, hv, hvr⟩ := pySum_ok resume hys
  obtain ⟨w, hw, hwq⟩ := jdMinOf_of_typed hmin
  rw [hv, hw]
  simp only [pyGeNone, pyLeB, pyLtB, hvr, hwq]
  by_cases hfs : jdFieldsOf j = [] <;> simp [hfs]

theorem round2_natCast (n : ℕ) : round2 (n : ℚ) = n := by
  have h := round2_intCast (n : ℤ)
  push_cast at h
  exact h

theorem round2_hundred : round2 (100 : ℚ) = 100 := by
  have h := round2_natCast 100
  push_cast at h
  exact h

/-- `fields_similar` is reflexively true on `"python"` (ratio 1 > 0.7). -/
theorem fields_similar_python : fields_similar "python" "python" = true := by
  rw [fields_similar_eval (m := 6) (t := 12) (by decide) (by decide) (by decide)
    (by decide) (by decide)]
  norm_num

/-- `fields_similar "py" "python and java frameworks"` fails: the match
total is 2, so the ratio is 4/28 ≤ 0.7. -/
theorem fields_similar_py_frameworks :
    fields_similar "py" "python and java frameworks" = false := by
  rw [fields_similar_eval (m := 2) (t := 28) (by decide) (by decide) (by decide)
    (by decide) (by decide)]
  norm_num

/-- **C6 (amended).** For a present, non-empty requirement with
numeric-or-absent `min_years` and a non-empty, well-typed record list, the
experience score is the years component (30 in `[min,max]`, else 20 above
a finite max, else 15 at ≥ 0.8·min, else 0) plus the fields component (70
with no required fields, else the matched fraction of 70), capped at 100
and rounded to 2 decimals; the claim's example evaluates to 100. -/
theorem claim_C6 :
    (∀ (j : JDExp) (resume : List ExpEntry) (fuzzy : Bool),
      j.isEmptyDict = false → resume ≠ [] → j.min_years ≠ some none →
      (∀ e ∈ resume, e.years ≠ some none) →
      score_experience_match (some j) resume fuzzy =
        .ok (spec_experience_score j resume fuzzy)) ∧
    score_experience_match
      (some ⟨some true, some (some (.pint 2)), some (some (.pint 5)), some ["python"]⟩)
      [⟨some (some (.pfloat 3)), some (some "python")⟩] true = .ok 100 := by
  constructor
  · intro j res fuzzy h1 h2 h3 h4
    exact score_experience_match_eq_spec j res fuzzy h1 h2 h3 h4
  · rw [score_experience_match_eq_spec _ _ _ (by decide) (by decide) (by decide)
      (fun e he => by simp at he; simp [he])]
    have ht : totalYearsQ [⟨some (some (.pfloat 3)), some (some "python")⟩] = 3 := by
      simp [totalYearsQ, entryYears, PyNum.toRat]
    have hnf : normalize_field_name
        (entryField ⟨some (some (.pfloat 3)), some (some "python")⟩) = "python" := by decide
    unfold spec_experience_score
    rw [ht]
    simp only [jdMinQ, jdMinOf, jdMaxOf, jdFieldsOf, Option.getD_some, PyNum.toRat,
      scoreFieldHit, hnf, fields_similar_python, List.any_cons, List.any_nil,
      Bool.true_and, Bool.or_false, Bool.false_or, Bool.true_or, List.filter]
    norm_num
    exact round2_hundred

/-- **C6 counterexample.** For the empty requirement dict (a requirement
whose keys are all absent) and a non-empty record list the code returns
the score `0.0` from the `if not jd_exp` guard, while the claim's formula
yields 30 + 70 = 100. -/
theorem claim_C6_counterexample :
    score_experience_match (some ⟨none, none, none, none⟩)
      [⟨some (some (.pfloat 3)), none⟩] true = .ok 0 ∧
    spec_experience_score ⟨none, none, none, none⟩
      [⟨some (some (.pfloat 3)), none⟩] true = 100 := by
  constructor
  · rfl
  · have ht : totalYearsQ [(⟨some (some (.pfloat 3)), none⟩ : ExpEntry)] = 3 := by
      simp [totalYearsQ, entryYears, PyNum.toRat]
    unfold spec_experience_score
    rw [ht]
    simp only [jdMinQ, jdMinOf, jdMaxOf, jdFieldsOf, Option.getD_none, PyNum.toRat]
    norm_num
    exact round2_hundred

/-- **C6 witness.** The amended part of C6 applied at the example input. -/
theorem claim_C6_witness :
    score_experience_match
      (some ⟨some true, some (some (.pint 2)), some (some (.pint 5)), some ["python"]⟩)
      [⟨some (some (.pfloat 3)), some (some "python")⟩] true =
    .ok (spec_experience_score
      ⟨some true, some (some (.pint 2)), some (some (.pint 5)), some ["python"]⟩
      [⟨some (some (.pfloat 3)), some (some "python")⟩] true) :=
  claim_C6.1 _ _ _ (by decide) (by decide) (by decide)
    (fun e he => by simp at he; simp [he])

/-- **C4.** Where the claim expects the typed `FloatNoneComparisonError`
from `evaluate_experience`, the code raises a plain `TypeError`: a record
`years` of `None` fails in the summation (outside any try block, in both
functions), and a `None` `min_years` fails in `evaluate_experience`'s
unguarded comparison; only `score_experience_match` converts the latter
(a float-vs-None comparison) into `FloatNoneComparisonError`. -/
theorem claim_C4 :
    evaluate_experience (some ⟨some true, some (some (.pint 1)), none, none⟩)
      [⟨some none, none⟩] true = .error (.typeErr false) ∧
    score_experience_match (some ⟨some true, some (some (.pint 1)), none, none⟩)
      [⟨some none, none⟩] true = .error (.typeErr false) ∧
    evaluate_experience (some ⟨some true, some none, none, none⟩)
      [⟨some (some (.pfloat 2)), none⟩] true = .error (.typeErr true) ∧
    score_experience_match (some ⟨some true, some none, none, none⟩)
      [⟨some (some (.pfloat 2)), none⟩] true = .error .floatNoneCmp ∧
    PyErr.typeErr false ≠ .floatNoneCmp ∧ PyErr.typeErr true ≠ .floatNoneCmp :=
  ⟨rfl, rfl, rfl, rfl, by decide, by decide⟩

/-- **C10.** With fuzzy matching on, the required field `"py"` is not
fuzzy-similar to the record field (ratio 4/28 ≤ 0.7) but is
substring-contained in it, so `score_experience_match` awards the full
field points (scoring 100) through its substring fallback while
`evaluate_experience`'s fuzzy-only pass/fail check rejects the same
pairing and fails. -/
theorem claim_C10 :
    fields_similar "py" "python and java frameworks" = false ∧
    similar "py" "python and java frameworks" ≤ 7 / 10 ∧
    isSubstr (lowerStr "py").toList
      (normalize_field_name (some "python and java frameworks")).toList = true ∧
    score_experience_match
      (some ⟨some true, some (some (.pint 0)), none, some ["py"]⟩)
      [⟨some (some (.pfloat 1)), some (some "python and java frameworks")⟩] true = .ok 100 ∧
    evaluate_experience
      (some ⟨some true, some (some (.pint 0)), none, some ["py"]⟩)
      [⟨some (some (.pfloat 1)), some (some "python and java frameworks")⟩] true =
      .ok false := by
  have ht : totalYearsQ
      [(⟨some (some (.pfloat 1)), some (some "python and java frameworks")⟩ : ExpEntry)] = 1 := by
    simp [totalYearsQ, entryYears, PyNum.toRat]
  have hnf : normalize_field_name
      (entryField ⟨some (some (.pfloat 1)), some (some "python and java frameworks")⟩) =
      "python and java frameworks" := by decide
  refine ⟨fields_similar_py_frameworks, ?_, by decide, ?_, ?_⟩
  · have hm : matchTotal (lowerList "py".toList)
        (lowerList "python and java frameworks".toList)
        (b2jChain (lowerList "python and java frameworks".toList))
        ((lowerList "py".toList).length +
          (lowerList "python and java frameworks".toList).length + 1) 0
        (lowerList "py".toList).length 0
        (lowerList "python and java frameworks".toList).length = 2 := by decide
    unfold similar seqMatcherRatio
    rw [hm]
    have hL1 : (lowerList "py".toList).length = 2 := by decide
    have hL2 : (lowerList "python and java frameworks".toList).length = 26 := by decide
    rw [hL1, hL2]
    norm_num
  · rw [score_experience_match_eq_spec _ _ _ (by decide) (by decide) (by decide)
      (fun e he => by simp at he; simp [he])]
    unfold spec_experience_score
    rw [ht]
    have hsub : isSubstr (lowerStr "py").toList
        ("python and java frameworks" : String).toList = true := by decide
    simp only [jdMinQ, jdMinOf, jdMaxOf, jdFieldsOf, Option.getD_some, PyNum.toRat,
      scoreFieldHit, hnf, fields_similar_py_frameworks, hsub, List.any_cons, List.any_nil,
      Bool.true_and, Bool.false_and, Bool.false_or, Bool.or_false, List.filter]
    norm_num
    exact round2_hundred
  · rw [evaluate_experience_eq_spec _ _ _ (by decide) (by decide)
      (fun e he => by simp at he; simp [he])]
    unfold spec_experience_pass
    rw [ht]
    simp only [jdMinQ, jdMinOf, jdMaxOf, jdFieldsOf, Option.getD_some, PyNum.toRat,
      expFieldHit, hnf, fields_similar_py_frameworks, List.any_cons, List.any_nil,
      if_true, List.isEmpty]
    norm_num

/-! ### Skill-expression lemmas and claims C1, C2, C3 -/

theorem round2_zero : round2 0 = 0 := by
  rw [round2]
  norm_num

/-- `popGE` never pops a `'('` (the loop stops at one). -/
theorem popGE_lp {t : BOp} :
    ∀ {ops : List StkE} {st ops' st'}, popGE t ops st = some (ops', st') →
      ops'.count StkE.lp = ops.count StkE.lp := by
  intro ops
  induction ops with
  | nil =>
    intro st ops' st' h
    simp only [popGE, Option.some.injEq, Prod.mk.injEq] at h
    rw [← h.1]
  | cons s ops ih =>
    intro st ops' st' h
    cases s with
    | lp =>
      simp only [popGE] at h
      rw [if_neg (by simp)] at h
      simp only [Option.some.injEq, Prod.mk.injEq] at h
      rw [← h.1]
    | op o =>
      simp only [popGE] at h
      by_cases hc : prec t ≤ precStk (StkE.op o)
      · rw [if_pos ⟨by simp, hc⟩] at h
        cases ha : applyOp o st with
        | none => rw [ha] at h; exact absurd h (by simp)
        | some st2 =>
          rw [ha] at h
          rw [ih h]
          simp [List.count_cons]
      · rw [if_neg (by simp [hc])] at h
        simp only [Option.some.injEq, Prod.mk.injEq] at h
        rw [← h.1]

/-- `popToLp` removes exactly one `'('` from the operator stack. -/
theorem popToLp_lp :
    ∀ {ops : List StkE} {st ops' st'}, popToLp ops st = some (ops', st') →
      ops'.count StkE.lp + 1 = ops.count StkE.lp := by
  intro ops
  induction ops with
  | nil => intro st ops' st' h; exact absurd h (by simp [popToLp])
  | cons s ops ih =>
    intro st ops' st' h
    cases s with
    | lp =>
      simp only [popToLp, Option.some.injEq, Prod.mk.injEq] at h
      rw [← h.1]
      simp [List.count_cons]
    | op o =>
      simp only [popToLp] at h
      cases ha : applyOp o st with
      | none => rw [ha] at h; exact absurd h (by simp)
      | some st2 =>
        rw [ha] at h
        rw [ih h]
        simp [List.count_cons]

/-- A successful drain means no `'('` was left on the operator stack. -/
theorem drainOps_lp :
    ∀ {ops : List StkE} {st st'}, drainOps ops st = some st' →
      ops.count StkE.lp = 0 := by
  intro ops
  induction ops with
  | nil => intro st st' _; rfl
  | cons s ops ih =>
    intro st st' h
    cases s with
    | lp => exact absurd h (by simp [drainOps])
    | op o =>
      simp only [drainOps] at h
      cases ha : applyOp o st with
      | none => rw [ha] at h; exact absurd h (by simp)
      | some st2 =>
        rw [ha] at h
        rw [List.count_cons]
        simp [ih h]

theorem evalFold_none {sk : Finset String} (ts : List ETok) :
    ts.foldl (evalStep sk) none = none := by
  induction ts with
  | nil => rfl
  | cons t ts ih => simp only [List.foldl_cons, evalStep]; exact ih

/-- Stack–token parenthesis bookkeeping of the evaluation loop: on success,
the `'('` count on the stack grows by the excess of `'('` tokens over `')'`
tokens. -/
theorem evalFold_lp {sk : Finset String} :
    ∀ (ts : List ETok) (ops : List StkE) (st : List Bool) (ops' : List StkE) (st' : List Bool),
      ts.foldl (evalStep sk) (some (ops, st)) = some (ops', st') →
      (ops'.count StkE.lp : ℤ) + ts.count ETok.rp =
        (ops.count StkE.lp : ℤ) + ts.count ETok.lp := by
  intro ts
  induction ts with
  | nil =>
    intro ops st ops' st' h
    simp only [List.foldl_nil, Option.some.injEq, Prod.mk.injEq] at h
    simp [← h.1]
  | cons t ts ih =>
    intro ops st ops' st' h
    simp only [List.foldl_cons] at h
    cases t with
    | op o =>
      cases hp : popGE o ops st with
      | none =>
        rw [show evalStep sk (some (ops, st)) (ETok.op o) = none by
          simp [evalStep, hp], evalFold_none] at h
        exact absurd h (by simp)
      | some p =>
        obtain ⟨p1, p2⟩ := p
        rw [show evalStep sk (some (ops, st)) (ETok.op o) = some (StkE.op o :: p1, p2) by
          simp [evalStep, hp]] at h
        have := ih _ _ _ _ h
        have hpc := popGE_lp hp
        simp [List.count_cons] at this ⊢
        omega
    | lp =>
      rw [show evalStep sk (some (ops, st)) ETok.lp = some (StkE.lp :: ops, st) by
        simp [evalStep]] at h
      have := ih _ _ _ _ h
      simp [List.count_cons] at this ⊢
      omega
    | rp =>
      cases hp : popToLp ops st with
      | none =>
        rw [show evalStep sk (some (ops, st)) ETok.rp = none by
          simp [evalStep, hp], evalFold_none] at h
        exact absurd h (by simp)
      | some p =>
        rw [show evalStep sk (some (ops, st)) ETok.rp = some p by
          simp [evalStep, hp]] at h
        obtain ⟨p1, p2⟩ := p
        have := ih _ _ _ _ h
        have hc := popToLp_lp hp
        simp [List.count_cons] at this ⊢
        omega
    | lit s =>
      rw [show evalStep sk (some (ops, st)) (ETok.lit s) =
        some (ops, decide (s ∈ sk) :: st) by simp [evalStep]] at h
      have := ih _ _ _ _ h
      simp [List.count_cons] at this ⊢
      omega

/-- A successful evaluation implies balanced parenthesis token counts. -/
theorem evalToks_balanced {sk : Finset String} {ts : List ETok} {b : Bool}
    (h : evalToks sk ts = some b) :
    ts.count ETok.lp = ts.count ETok.rp := by
  unfold evalToks at h
  cases hf : ts.foldl (evalStep sk) (some ([], [])) with
  | none => rw [hf] at h; exact absurd h (by simp)
  | some p =>
    obtain ⟨ops, st⟩ := p
    simp only [hf] at h
    cases hd : drainOps ops st with
    | none =>
      simp only [hd] at h
      exact absurd h (by simp)
    | some st2 =>
      have hb := evalFold_lp ts [] [] ops st hf
      have hz := drainOps_lp hd
      rw [hz] at hb
      simp at hb
      omega

/-- **C3.** Malformed skill expressions fail closed: an erroring two-stack
evaluation, an empty token list, and (in particular) unbalanced
parenthesis tokens all make `evaluate_resume` return `(False, 0.0)` — the
embedding is a total function, so no exception escapes. -/
theorem claim_C3 :
    (∀ (e : String) (s : Finset String), evalCore e s = none →
      evaluate_resume e s = (false, 0)) ∧
    (∀ (e : String) (s : Finset String), skillsTokens e = [] →
      evaluate_resume e s = (false, 0)) ∧
    (∀ (e : String) (s : Finset String),
      ((skillsTokens e).map codeTok).count ETok.lp ≠
        ((skillsTokens e).map codeTok).count ETok.rp →
      evaluate_resume e s = (false, 0)) := by
  refine ⟨?_, ?_, ?_⟩
  · intro e s h
    unfold evaluate_resume
    split_ifs with h1 h2
    · rfl
    · rfl
    · rw [h]
  · intro e s h
    unfold evaluate_resume
    split_ifs with h1
    · rfl
    · rfl
  · intro e s h
    unfold evaluate_resume
    split_ifs with h1 h2
    · rfl
    · rfl
    · cases hev : evalCore e s with
      | none => rfl
      | some b => exact absurd (evalToks_balanced hev) h

/-- **C3 witness.** The three parts applied at concrete malformed inputs:
a trailing operator, a token-free expression, and an unclosed
parenthesis. -/
theorem claim_C3_witness :
    evaluate_resume "\"Python\" AND" ∅ = (false, 0) ∧
    evaluate_resume "no quoted skills here" ∅ = (false, 0) ∧
    evaluate_resume "(\"Python\"" ∅ = (false, 0) :=
  ⟨claim_C3.1 _ _ (by decide), claim_C3.2.1 _ _ (by decide),
   claim_C3.2.2 _ _ (by decide)⟩

/-- The side condition of amended C1: no quoted literal of the expression
collapses, after normalization, into an operator or parenthesis string. -/
def litOk (t : SkTok) : Bool :=
  match t with
  | .quoted c => decide (normalizeLit c ∉ (["and", "or", "not", "(", ")"] : List String))
  | _ => true

theorem codeTok_eq_specTok {t : SkTok} (h : litOk t = true) : codeTok t = specTok t := by
  cases t with
  | quoted c =>
    simp only [litOk, decide_eq_true_eq, List.mem_cons, List.mem_singleton, not_or] at h
    obtain ⟨h1, h2, h3, h4, h5⟩ := h
    simp only [codeTok, specTok, if_neg h1, if_neg h2, if_neg h3, if_neg h4,
      if_neg (by simpa using h5)]
  | kwAnd => rfl
  | kwOr => rfl
  | kwNot => rfl
  | lp => rfl
  | rp => rfl

/-- **C1 (amended).** When no quoted literal of the expression normalizes
to `and`/`or`/`not`/`(`/`)`, `evaluate_resume` coincides with the
specified evaluator in which every quoted literal pushes a membership test
and only unquoted keywords act as operators; the two differ in general
because normalization erases the quotes before the dispatch. -/
theorem claim_C1 (e : String) (s : Finset String)
    (h : ∀ t ∈ skillsTokens e, litOk t = true) :
    evaluate_resume e s = spec_evaluate_resume e s := by
  have hmap : (skillsTokens e).map codeTok = (skillsTokens e).map specTok :=
    List.map_congr_left (fun t ht => codeTok_eq_specTok (h t ht))
  unfold evaluate_resume spec_evaluate_resume evalCore
  rw [hmap]

/-- **C1 counterexample.** On the expression consisting of the single
QUOTED literal `"and"` with candidate set `{"and"}`, the claim prescribes
`(True, 100.0)` (the literal is in the set), but the code treats the
normalized token as the `and` operator, errors on the empty operand
stack, and fails closed to `(False, 0.0)`. -/
theorem claim_C1_counterexample :
    evaluate_resume "\"and\"" {"and"} = (false, 0) ∧
    spec_evaluate_resume "\"and\"" {"and"} = (true, 100) := by
  constructor
  · rfl
  · unfold spec_evaluate_resume
    rw [if_neg (by decide), if_neg (by decide)]
    have he : evalToks (normSkills {"and"})
        ((skillsTokens "\"and\"").map specTok) = some true := by decide
    simp only [he]
    have h1 : requiredSkills "\"and\"" = {"and"} := by decide
    have h2 : normSkills {"and"} = {"and"} := by decide
    simp only [matchScore, h1, h2]
    rw [if_neg (by decide : ¬({"and"} : Finset String) = ∅)]
    rw [show (({"and"} : Finset String) ∩ {"and"}).card = 1 from by decide,
      show ({"and"} : Finset String).card = 1 from by decide]
    rw [show ((1 : ℕ) : ℚ) / ((1 : ℕ) : ℚ) * 100 = ((100 : ℕ) : ℚ) by push_cast; norm_num]
    rw [round2_natCast]
    norm_num

/-- **C1 witness.** The amended claim applied at the spec's own example
expression, whose literals are ordinary skill names. -/
theorem claim_C1_witness :
    evaluate_resume "\"Python\" AND (\"Java\" OR \"Go\")" {"python", "go"} =
    spec_evaluate_resume "\"Python\" AND (\"Java\" OR \"Go\")" {"python", "go"} :=
  claim_C1 _ _ (by decide)

theorem requiredSkills_of_tokens_nil {e : String} (h : skillsTokens e = []) :
    requiredSkills e = ∅ := by
  unfold requiredSkills
  rw [h]
  rfl

/-- **C2 (amended).** Whenever the two-stack evaluation does not error (or
the expression has no quoted literals at all), the returned score is
`|required ∩ candidate| / |required| · 100` rounded to two decimals (0.0
for an empty requirement set), computed over ALL quoted literals of the
expression regardless of the matched boolean branch; and
`evaluate_resume('"Python" AND "Java"', {"python"})` = `(False, 50.0)`. -/
theorem claim_C2 :
    (∀ (e : String) (s : Finset String),
      (evalCore e s ≠ none ∨ requiredSkills e = ∅) →
      (evaluate_resume e s).2 = spec_skill_score e s) ∧
    evaluate_resume "\"Python\" AND \"Java\"" {"python"} = (false, 50) := by
  constructor
  · intro e s h
    unfold evaluate_resume spec_skill_score
    by_cases hg : e = "" ∨ e = "False"
    · rw [if_pos hg]
      have hreq : requiredSkills e = ∅ := by
        rcases hg with hg | hg <;> subst hg <;> decide
      simp [hreq]
    · rw [if_neg hg]
      by_cases htok : skillsTokens e = []
      · have hreq := requiredSkills_of_tokens_nil htok
        simp [htok, hreq]
      · rw [if_neg htok]
        cases hev : evalCore e s with
        | none =>
          have hreq : requiredSkills e = ∅ := by
            rcases h with h | h
            · exact absurd hev h
            · exact h
          simp [hreq]
        | some b =>
          simp only
          by_cases hreq : requiredSkills e = ∅
          · simp [matchScore, hreq, round2_zero]
          · simp only [matchScore, hreq, if_neg hreq, if_false]
  · have hev : evalCore "\"Python\" AND \"Java\"" {"python"} = some false := by decide
    unfold evaluate_resume
    rw [if_neg (by decide), if_neg (by decide)]
    simp only [hev]
    have h1 : requiredSkills "\"Python\" AND \"Java\"" = {"python", "java"} := by decide
    have h2 : normSkills {"python"} = {"python"} := by decide
    simp only [matchScore, h1, h2]
    rw [if_neg (by decide : ¬({"python", "java"} : Finset String) = ∅)]
    rw [show (({"python", "java"} : Finset String) ∩ {"python"}).card = 1 from by decide,
      show ({"python", "java"} : Finset String).card = 2 from by decide]
    rw [show ((1 : ℕ) : ℚ) / ((2 : ℕ) : ℚ) * 100 = ((50 : ℕ) : ℚ) by push_cast; norm_num]
    rw [round2_natCast]
    norm_num

/-- **C2 counterexample.** On the malformed expression `"Python" AND` with
candidate `{"python"}`, the claim's formula gives 100.0 (the one required
literal is matched), but the code's fail-closed error path returns a
score of 0.0. -/
theorem claim_C2_counterexample :
    (evaluate_resume "\"Python\" AND" {"python"}).2 = 0 ∧
    spec_skill_score "\"Python\" AND" {"python"} = 100 := by
  constructor
  · rfl
  · unfold spec_skill_score
    have h1 : requiredSkills "\"Python\" AND" = {"python"} := by decide
    have h2 : normSkills {"python"} = {"python"} := by decide
    simp only [h1, h2]
    rw [if_neg (by decide : ¬({"python"} : Finset String) = ∅)]
    rw [show (({"python"} : Finset String) ∩ {"python"}).card = 1 from by decide,
      show ({"python"} : Finset String).card = 1 from by decide]
    rw [show ((1 : ℕ) : ℚ) / ((1 : ℕ) : ℚ) * 100 = ((100 : ℕ) : ℚ) by push_cast; norm_num]
    rw [round2_natCast]
    norm_num

/-- **C2 witness.** The amended score law applied at a concrete
successfully-evaluating expression. -/
theorem claim_C2_witness :
    (evaluate_resume "\"Go\" OR \"Rust\"" {"go"}).2 =
      spec_skill_score "\"Go\" OR \"Rust\"" {"go"} :=
  claim_C2.1 _ _ (Or.inl (by decide))

/-! ### Education lemmas and claims C8, C9 -/

theorem round2_bounds {q : ℚ} (h0 : 0 ≤ q) (h1 : q ≤ 100) :
    0 ≤ round2 q ∧ round2 q ≤ 100 := by
  rw [round2, round_eq]
  constructor
  · apply div_nonneg _ (by norm_num)
    have h : (0 : ℤ) ≤ ⌊q * 100 + 1 / 2⌋ := Int.floor_nonneg.mpr (by positivity)
    exact_mod_cast h
  · rw [div_le_iff (by norm_num)]
    have hf : (⌊q * 100 + 1 / 2⌋ : ℚ) ≤ q * 100 + 1 / 2 := Int.floor_le _
    have hi : ⌊q * 100 + 1 / 2⌋ ≤ 10000 := by
      by_contra hc
      push_neg at hc
      have hge : (10001 : ℚ) ≤ (⌊q * 100 + 1 / 2⌋ : ℚ) := by exact_mod_cast hc
      nlinarith
    calc ((⌊q * 100 + 1 / 2⌋ : ℤ) : ℚ) ≤ 10000 := by exact_mod_cast hi
    _ = 100 * 100 := by norm_num

/-- A level whose requirement is not marked required always matches. -/
theorem elm_not_required (jd : EduReq) (re : Option EduRecord) (level : String)
    (h : jd.required.getD false = false) :
    education_level_match jd re level = true := by
  simp [education_level_match, h]

/-- The weighted-score shape of `evaluate_education_score`: the sum of the
weights of the satisfied levels over the total weight 1, times 100,
rounded. -/
theorem education_score_formula (jd : JDEducation) (res : List EduRecord) :
    evaluate_education_score jd res =
      round2 (((if education_level_match (jdEduGet jd "10th") (get_resume_entry res "10th") "10th"
          then (1 : ℚ) / 10 else 0) +
        (if education_level_match (jdEduGet jd "PU") (get_resume_entry res "PU") "PU"
          then (2 : ℚ) / 10 else 0) +
        (if education_level_match (jdEduGet jd "UG") (get_resume_entry res "UG") "UG"
          then (5 : ℚ) / 10 else 0) +
        (if education_level_match (jdEduGet jd "PG") (get_resume_entry res "PG") "PG"
          then (2 : ℚ) / 10 else 0)) / 1 * 100) := by
  unfold evaluate_education_score EDUCATION_LEVEL_WEIGHTS
  simp only [List.foldl_cons, List.foldl_nil]
  rw [if_pos (by norm_num)]
  split_ifs <;> norm_num

/-- **C8.** Education matching: an un-required level is automatically
satisfied; a required level with no record fails; `education_result` is
the conjunction over the four levels; the score is the weight sum of
satisfied levels over total weight 1, times 100, rounded — hence in
[0, 100] — and with no level required the match is true and the score is
100.0. -/
theorem claim_C8 :
    (∀ (jd : EduReq) (re : Option EduRecord) (level : String),
      jd.required.getD false = false → education_level_match jd re level = true) ∧
    (∀ (jd : EduReq) (level : String),
      jd.required.getD false = true → education_level_match jd none level = false) ∧
    (∀ (jd : JDEducation) (res : List EduRecord),
      education_result jd res =
        (education_level_match (jdEduGet jd "10th") (get_resume_entry res "10th") "10th" &&
          (education_level_match (jdEduGet jd "PU") (get_resume_entry res "PU") "PU" &&
            (education_level_match (jdEduGet jd "UG") (get_resume_entry res "UG") "UG" &&
              education_level_match (jdEduGet jd "PG") (get_resume_entry res "PG") "PG")))) ∧
    (∀ (jd : JDEducation) (res : List EduRecord),
      evaluate_education_score jd res =
        round2 (((if education_level_match (jdEduGet jd "10th") (get_resume_entry res "10th") "10th"
            then (1 : ℚ) / 10 else 0) +
          (if education_level_match (jdEduGet jd "PU") (get_resume_entry res "PU") "PU"
            then (2 : ℚ) / 10 else 0) +
          (if education_level_match (jdEduGet jd "UG") (get_resume_entry res "UG") "UG"
            then (5 : ℚ) / 10 else 0) +
          (if education_level_match (jdEduGet jd "PG") (get_resume_entry res "PG") "PG"
            then (2 : ℚ) / 10 else 0)) / 1 * 100) ∧
        0 ≤ evaluate_education_score jd res ∧ evaluate_education_score jd res ≤ 100) ∧
    (∀ (jd : JDEducation) (res : List EduRecord),
      (∀ level ∈ (["10th", "PU", "UG", "PG"] : List String),
        (jdEduGet jd level).required.getD false = false) →
      education_result jd res = true ∧ evaluate_education_score jd res = 100) := by
  refine ⟨elm_not_required, ?_, ?_, ?_, ?_⟩
  · intro jd level h
    simp [education_level_match, h]
  · intro jd res
    simp [education_result, List.all_cons, List.all_nil, Bool.and_assoc]
  · intro jd res
    refine ⟨education_score_formula jd res, ?_⟩
    rw [education_score_formula jd res]
    exact round2_bounds (by split_ifs <;> norm_num) (by split_ifs <;> norm_num)
  · intro jd res h
    have h10 := elm_not_required (jdEduGet jd "10th") (get_resume_entry res "10th") "10th"
      (h "10th" (by simp))
    have hPU := elm_not_required (jdEduGet jd "PU") (get_resume_entry res "PU") "PU"
      (h "PU" (by simp))
    have hUG := elm_not_required (jdEduGet jd "UG") (get_resume_entry res "UG") "UG"
      (h "UG" (by simp))
    have hPG := elm_not_required (jdEduGet jd "PG") (get_resume_entry res "PG") "PG"
      (h "PG" (by simp))
    constructor
    · simp [education_result, List.all_cons, List.all_nil, h10, hPU, hUG, hPG]
    · rw [education_score_formula jd res, h10, hPU, hUG, hPG]
      norm_num
      exact round2_hundred

/-- **C8 witness.** The no-level-required part applied at the empty
requirement and record list (every level defaults to
`{"required": False}`). -/
theorem claim_C8_witness :
    education_result ⟨none, none, none, none⟩ [] = true ∧
    evaluate_education_score ⟨none, none, none, none⟩ [] = 100 :=
  claim_C8.2.2.2.2 ⟨none, none, none, none⟩ []
    (by decide)

/-- The amended parse rule of C9: falsy inputs (absent, zero, the empty
string) yield absent; a nonzero number parses to its own value; a
non-empty string is trimmed, has EVERY `%` removed (not only a trailing
one), and is float-parsed; failure yields absent. -/
def amended_parse_cgpa (v : PyVal) : Option PyNum :=
  match v with
  | .vnone => none
  | .vint z => if z = 0 then none else some (.pfloat z)
  | .vfloat q => if q = 0 then none else some (.pfloat q)
  | .vstr s =>
    if s = "" then none
    else (pyParseFloat ((pyStrip s.toList).filter (fun c => c ≠ '%'))).map .pfloat

/-- **C9 (amended).** `parse_cgpa` follows the amended rule (never raising,
by totality of the embedding), and in `education_level_match` a REQUIRED
level with a record and a specified minimum CGPA is satisfied only if the
record's parsed CGPA is present and at least the minimum. -/
theorem claim_C9 :
    (∀ v, parse_cgpa v = amended_parse_cgpa v) ∧
    (∀ (jd : EduReq) (r : EduRecord) (level : String) (jc : PyNum),
      jd.required.getD false = true → jd.cgpa.getD none = some jc →
      education_level_match jd (some r) level = true →
      ∃ rc, r.cgpa = some rc ∧ jc.toRat ≤ rc.toRat) := by
  constructor
  · intro v
    cases v <;> rfl
  · intro jd r level jc hreq hc hm
    have hck : cgpaCheck jd r = true := by
      by_contra hck
      rw [Bool.not_eq_true] at hck
      unfold education_level_match at hm
      rw [if_neg (by simp [hreq])] at hm
      simp [hck] at hm
    unfold cgpaCheck at hck
    rw [hc] at hck
    cases hrc : r.cgpa with
    | none => rw [hrc] at hck; simp at hck
    | some rc =>
      rw [hrc] at hck
      refine ⟨rc, rfl, ?_⟩
      simp only [pyLtB, Bool.not_eq_true', decide_eq_false_iff_not, not_lt] at hck
      exact hck

/-- **C9 counterexample.** On the string `"8%5"` the code's
replace-all-`%` parse yields `85.0` while the claim's trailing-`%` rule
fails to parse (absent); the number `0` is parsed by the claim but is
falsy in the code, yielding absent; and a level that is NOT required is
satisfied with an absent record CGPA even though its requirement
specifies a minimum CGPA, against the claim's unconditional "absent
record CGPA fails". -/
theorem claim_C9_counterexample :
    parse_cgpa (.vstr "8%5") ≠ spec_parse_cgpa (.vstr "8%5") ∧
    spec_parse_cgpa (.vstr "8%5") = none ∧
    parse_cgpa (.vstr "8%5") = some (.pfloat 85) ∧
    parse_cgpa (.vint 0) = none ∧
    spec_parse_cgpa (.vint 0) = some (.pfloat 0) ∧
    education_level_match ⟨some false, none, some (some (.pfloat 9))⟩
      (some ⟨"10th", none, none⟩) "10th" = true := by
  refine ⟨by decide, by decide, ?_, by decide, by decide, by decide⟩
  have hp : (pyStrip "8%5".toList).filter (fun c => c ≠ '%') = ['8', '5'] := by decide
  simp only [parse_cgpa, if_neg (show ¬("8%5" : String) = "" from by decide), hp]
  rw [show pyParseFloat ['8', '5'] = some ((1 : ℚ) * ((85 : ℕ) : ℚ)) from rfl]
  simp only [Option.map_some', Option.some.injEq, PyNum.pfloat.injEq]
  push_cast
  norm_num

/-- **C9 witness.** The CGPA necessity applied at a required 10th-level
entry with minimum 8 against a record parsed to 9. -/
theorem claim_C9_witness :
    ∃ rc, (EduRecord.mk "10th" none (some (.pfloat 9))).cgpa = some rc ∧
      (PyNum.pfloat 8).toRat ≤ rc.toRat :=
  claim_C9.2 ⟨some true, none, some (some (.pfloat 8))⟩ ⟨"10th", none, some (.pfloat 9)⟩
    "10th" (.pfloat 8) (by decide) (by decide) (by decide)

end ResumeAnalyzer
